import Mathlib

/-!
# KiroAccountManager — verification of the spec against `src-tauri/src/main.rs`

Shallow embedding of the deep-link delivery pipeline of
`src/src-tauri/src/main.rs` (the single-instance callback that hunts for a
`kiro://` URL in a second instance's argument vector, the Tauri-event JSON
serialization of the emitted URL, and the `deep-link://new-url` listener that
decodes the payload), together with spec-modelled embeddings of the
AuthState / AccountStore / MachineGuidBinder operations whose Rust modules
are declared in `main.rs` but whose sources are not part of the snapshot.

Rust strings are modelled as `List Char` (for valid UTF-8, `str::starts_with`
on strings agrees with character-list prefix testing, and `serde_json`
operates on the code points of the decoded text).
-/

/-- Rust `String` / `&str`, modelled as its sequence of Unicode scalar values. -/
abbrev Str := List Char

/-- Convenience injection from Lean string literals. -/
def str (s : String) : Str := s.data

/-- The registered URI scheme's prefix `"kiro://"` (main.rs line 98/100). -/
def kiroScheme : Str := str "kiro://"

/-- Rust `str::starts_with`: the pattern is a prefix of the string. -/
def strStartsWith (s p : Str) : Bool := p.isPrefixOf s

/-! ## The single-instance URL selection (main.rs lines 96–104)

```rust
let url = if args.len() > 3 {
    Some(&args[3])
} else if args.len() > 1 && args[1].starts_with("kiro://") {
    Some(&args[1])
} else if args.len() > 2 && args[2].starts_with("kiro://") {
    Some(&args[2])
} else {
    None
};
```
-/

/-- Embedding of the `url` selection in the `single_instance` closure
(main.rs lines 96–104). Note `args[i]` is in-bounds exactly when the
corresponding `args.len()` guard holds, so `List.get?` is total here. -/
def selectUrl (args : List Str) : Option Str :=
  if 3 < args.length then args.get? 3
  else if 1 < args.length ∧ strStartsWith (args.getD 1 []) kiroScheme then args.get? 1
  else if 2 < args.length ∧ strStartsWith (args.getD 2 []) kiroScheme then args.get? 2
  else none

/-- The spec's words for C1 (refinement comparison only, not from the source):
"the first argument matching the registered URI scheme prefix". -/
def firstKiroArg (args : List Str) : Option Str :=
  args.find? (fun a => strStartsWith a kiroScheme)

example : selectUrl [str "exe", str "kiro://x"] = some (str "kiro://x") := by decide
example : selectUrl [str "exe", str "--open-url", str "--", str "kiro://cb"] =
    some (str "kiro://cb") := by decide
example : selectUrl [str "exe", str "kiro://x", str "a", str "b"] = some (str "b") := by
  decide

/-! ## JSON string serialization across the event bus

`app.emit("deep-link://new-url", url.as_str())` (main.rs line 109) serializes
the payload with `serde_json`, and the listener (main.rs line 153) decodes it
with `serde_json::from_str::<String>`. We embed serde_json's string
serialization (escape `"` and `\`, named escapes for BS/TAB/LF/FF/CR, `\u00XX`
with lowercase hex for the remaining control characters, everything else
verbatim) and its string parsing (all JSON escapes including `\uXXXX` with
surrogate pairs, whole-input consumption modulo JSON whitespace). -/

/-- Value of one hex digit (JSON accepts both cases). -/
def hexVal (c : Char) : Option Nat :=
  if '0' ≤ c ∧ c ≤ '9' then some (c.toNat - '0'.toNat)
  else if 'a' ≤ c ∧ c ≤ 'f' then some (c.toNat - 'a'.toNat + 10)
  else if 'A' ≤ c ∧ c ≤ 'F' then some (c.toNat - 'A'.toNat + 10)
  else none

/-- Value of a 4-digit hex escape body. -/
def hex4 (h1 h2 h3 h4 : Char) : Option Nat :=
  match hexVal h1, hexVal h2, hexVal h3, hexVal h4 with
  | some a, some b, some c, some d => some (((a * 16 + b) * 16 + c) * 16 + d)
  | _, _, _, _ => none

/-- Lowercase hex digit for `n < 16` (serde_json's digit table). -/
def hexDigit (n : Nat) : Char :=
  if n < 10 then Char.ofNat ('0'.toNat + n) else Char.ofNat ('a'.toNat + n - 10)

/-- serde_json's escaping of one character inside a JSON string. -/
def escapeChar (c : Char) : List Char :=
  if c = '"' then ['\\', '"']
  else if c = '\\' then ['\\', '\\']
  else if c.toNat < 0x20 then
    if c.toNat = 0x08 then ['\\', 'b']
    else if c.toNat = 0x09 then ['\\', 't']
    else if c.toNat = 0x0A then ['\\', 'n']
    else if c.toNat = 0x0C then ['\\', 'f']
    else if c.toNat = 0x0D then ['\\', 'r']
    else ['\\', 'u', '0', '0', hexDigit (c.toNat / 16), hexDigit (c.toNat % 16)]
  else [c]

/-- The escaped body of a JSON string. -/
def encodeBody : Str → List Char
  | [] => []
  | c :: s => escapeChar c ++ encodeBody s

/-- serde_json's serialization of a string value: `"` body `"`. -/
def jsonEncodeString (s : Str) : List Char := '"' :: (encodeBody s ++ ['"'])

/-- Parse the body of a JSON string after the opening quote; returns the decoded
characters and the input remaining after the closing quote. The `fuel`
argument is a termination device only: every step consumes at least one input
character, so any `fuel` exceeding the input length gives the parse's value
(see `parseBody`). -/
def parseBodyF : Nat → List Char → Option (List Char × List Char)
  | 0, _ => none
  | _ + 1, [] => none
  | fuel + 1, c :: r =>
    if c = '"' then some ([], r)
    else if c = '\\' then
      match r with
      | [] => none
      | e :: r2 =>
        if e = '"' then (parseBodyF fuel r2).map (fun p => ('"' :: p.1, p.2))
        else if e = '\\' then (parseBodyF fuel r2).map (fun p => ('\\' :: p.1, p.2))
        else if e = '/' then (parseBodyF fuel r2).map (fun p => ('/' :: p.1, p.2))
        else if e = 'b' then (parseBodyF fuel r2).map (fun p => ('\x08' :: p.1, p.2))
        else if e = 'f' then (parseBodyF fuel r2).map (fun p => ('\x0C' :: p.1, p.2))
        else if e = 'n' then (parseBodyF fuel r2).map (fun p => ('\n' :: p.1, p.2))
        else if e = 'r' then (parseBodyF fuel r2).map (fun p => ('\x0D' :: p.1, p.2))
        else if e = 't' then (parseBodyF fuel r2).map (fun p => ('\t' :: p.1, p.2))
        else if e = 'u' then
          match r2 with
          | h1 :: h2 :: h3 :: h4 :: r3 =>
            match hex4 h1 h2 h3 h4 with
            | none => none
            | some n =>
              if n < 0xD800 ∨ 0xE000 ≤ n then
                (parseBodyF fuel r3).map (fun p => (Char.ofNat n :: p.1, p.2))
              else if n < 0xDC00 then
                match r3 with
                | c1 :: c2 :: g1 :: g2 :: g3 :: g4 :: r4 =>
                  if c1 = '\\' ∧ c2 = 'u' then
                    match hex4 g1 g2 g3 g4 with
                    | some m =>
                      if 0xDC00 ≤ m ∧ m < 0xE000 then
                        (parseBodyF fuel r4).map (fun p =>
                          (Char.ofNat (0x10000 + (n - 0xD800) * 0x400 + (m - 0xDC00))
                            :: p.1, p.2))
                      else none
                    | none => none
                  else none
                | _ => none
              else none
          | _ => none
        else none
    else (parseBodyF fuel r).map (fun p => (c :: p.1, p.2))

/-- The JSON string-body parse with always-sufficient fuel. -/
def parseBody (l : List Char) : Option (List Char × List Char) :=
  parseBodyF (l.length + 1) l

/-- JSON insignificant whitespace removal from the front of the input. -/
def skipWs : List Char → List Char
  | [] => []
  | c :: r => if c = ' ' ∨ c = '\t' ∨ c = '\n' ∨ c = '\x0D' then skipWs r else c :: r

/-- `serde_json::from_str::<String>`: optional whitespace, a JSON string
literal, optional trailing whitespace, end of input. -/
def jsonDecodeString (p : List Char) : Option Str :=
  match skipWs p with
  | [] => none
  | c :: r =>
    if c = '"' then
      match parseBody r with
      | some (s, rest) => if skipWs rest = [] then some s else none
      | none => none
    else none

example : jsonDecodeString (str "\"kiro://cb?state=abc\"") =
    some (str "kiro://cb?state=abc") := by decide
example : jsonDecodeString (str "kiro://raw") = none := by decide
example : jsonDecodeString (str "\"a\\n\\u0001\"") = some ['a', '\n', '\x01'] := by
  decide
example : jsonEncodeString (str "kiro://cb") = str "\"kiro://cb\"" := by decide

/-! ## The deep-link listener (main.rs lines 145–175)

```rust
let url: String = match serde_json::from_str(payload) {
    Ok(u) => u,
    Err(e) => payload.to_string(),
};
let handled = deep_link_handler::handle_deep_link(&url);
```
-/

/-- Embedding of the listener's URL determination (main.rs lines 153–163):
structured JSON decoding first, raw payload as the fallback. Total: every
payload yields a URL. -/
def listenerUrl (payload : List Char) : Str :=
  match jsonDecodeString payload with
  | some u => u
  | none => payload

/-! ## The single-instance closure as a whole (main.rs lines 84–124) -/

/-- Modelled from the spec (§3, §4.4): the closed set of identity providers;
`providers.rs` is not part of the source snapshot. -/
inductive Provider
  | SocialLogin
  | IdentityCenter
  | DirectImport
deriving DecidableEq, Repr

/-- Modelled from the spec (§3): the ephemeral pending-login handshake record
owned by AuthState; `auth.rs` is not part of the source snapshot. The
completion channel the waiting caller observes is not represented: no claim
touches it. -/
structure PendingLogin where
  correlation_token : Str
  provider : Provider
  created_at : Nat
  expires_at : Nat
deriving DecidableEq, Repr

/-- Observable effects of one run of the `single_instance` closure. -/
structure SingleInstanceResult where
  /-- Payload of the emitted `deep-link://new-url` event, if any
  (serde_json serialization of the found URL). -/
  emitted : Option (List Char)
  /-- `window.show()` was called on the main window. -/
  shownMain : Bool
  /-- `window.set_focus()` was called on the main window. -/
  focusedMain : Bool
deriving DecidableEq, Repr

/-- Embedding of the `single_instance` closure (main.rs lines 84–124): select a
URL from the argument vector, emit it when found, then show and focus the main
window when it exists. The closure never touches the pending-login slot, which
is threaded through unchanged. -/
def singleInstanceStep (args : List Str) (hasMainWindow : Bool)
    (pending : Option PendingLogin) : SingleInstanceResult × Option PendingLogin :=
  ({ emitted := (selectUrl args).map jsonEncodeString
   , shownMain := hasMainWindow
   , focusedMain := hasMainWindow }, pending)

/-! ## Spec-modelled account store, login correlation and machine-id binding

`account.rs`, `auth.rs` and the machine-guid module are declared in `main.rs`
(`mod account; mod auth; ...`, command registrations) but their sources are not
part of the snapshot, so these operations are modelled from the spec's §3,
§4.1, §4.2 and §4.5. -/

/-- Modelled from the spec (§3): `credentials {access_token, refresh_token?,
expires_at}`. -/
structure Credentials where
  access_token : Str
  refresh_token : Option Str
  expires_at : Nat
deriving DecidableEq, Repr

/-- Modelled from the spec (§3): `status ∈ {Active, Expired, Invalid}`. -/
inductive AccountStatus
  | Active
  | Expired
  | Invalid
deriving DecidableEq, Repr

/-- Modelled from the spec (§3): the Account identity record. -/
structure Account where
  id : Str
  provider : Provider
  display_name : Str
  credentials : Credentials
  bound_machine_id : Option Str
  status : AccountStatus
  last_verified_at : Nat
deriving DecidableEq, Repr

/-- Modelled from the spec (§2, §4.1): the durable collection of accounts
owned by AccountStore. -/
structure AccountStore where
  accounts : List Account
deriving DecidableEq, Repr

/-- Look an account up by id. -/
def getAccount (s : AccountStore) (id : Str) : Option Account :=
  s.accounts.find? (fun a => a.id == id)

/-- Replace the account with the given id in place. -/
def updateAccount (s : AccountStore) (id : Str) (f : Account → Account) :
    AccountStore :=
  ⟨s.accounts.map (fun a => if a.id == id then f a else a)⟩

/-- Modelled from the spec (§7): `ProviderError` carries provider identity and
a retriable flag. -/
structure ProviderErrorInfo where
  provider : Provider
  retriable : Bool
deriving DecidableEq, Repr

/-- Modelled from the spec (§5, §7): the failures `complete_login` can
report. -/
inductive LoginError
  | NoPendingLogin
  | CorrelationMismatch
  | Expired
  | Provider (e : ProviderErrorInfo)
deriving DecidableEq, Repr

/-- Modelled from the spec: `complete_login` of AuthState (§4.2) composed with
the §2 hand-off of a completed account to AccountStore; `auth.rs` is not part
of the source snapshot. The callback's correlation token is compared against
the active PendingLogin's `correlation_token`; `CorrelationMismatch` on any
disagreement, then `Expired` when `now > expires_at`; otherwise the matching
ProviderClient's `finish` runs, and on success the PendingLogin is removed and
the resulting account is persisted. -/
def complete_login (pending : Option PendingLogin) (store : AccountStore)
    (token : Str) (now : Nat)
    (finish : Str → Except ProviderErrorInfo Credentials)
    (mkAccount : Credentials → Account) :
    Except LoginError Account × Option PendingLogin × AccountStore :=
  match pending with
  | none => (.error .NoPendingLogin, none, store)
  | some p =>
    if token ≠ p.correlation_token then (.error .CorrelationMismatch, some p, store)
    else if p.expires_at < now then (.error .Expired, none, store)
    else
      match finish token with
      | .error e => (.error (.Provider e), none, store)
      | .ok creds =>
        (.ok (mkAccount creds), none, ⟨store.accounts ++ [mkAccount creds]⟩)

/-- Modelled from the spec (§4.1, §7): the failures `refresh` can report. -/
inductive RefreshError
  | NotFound
  | Provider (e : ProviderErrorInfo)
deriving DecidableEq, Repr

/-- Modelled from the spec: `refresh(id)` of AccountStore (§4.1); `account.rs`
is not part of the source snapshot. A token still valid past the grace window
is a no-op; otherwise `credentials` are replaced only after the provider
confirms success, and a failed exchange leaves the store untouched. -/
def refresh (store : AccountStore) (id : Str) (now grace : Nat)
    (exchange : Credentials → Except ProviderErrorInfo Credentials) :
    Except RefreshError Unit × AccountStore :=
  match getAccount store id with
  | none => (.error .NotFound, store)
  | some a =>
    if now + grace < a.credentials.expires_at then (.ok (), store)
    else
      match exchange a.credentials with
      | .error e => (.error (.Provider e), store)
      | .ok c =>
        (.ok (), updateAccount store id
          (fun b => { b with credentials := c, status := .Active }))

/-- Modelled from the spec (§3, §4.5): the machine-id ↔ account bindings owned
by MachineGuidBinder, as (machine_id, account_id) pairs. -/
structure MachineBinder where
  bindings : List (Str × Str)
deriving DecidableEq, Repr

/-- Modelled from the spec (§4.5): `bound_account_for(machine_id)`. -/
def MachineBinder.bound_account_for (b : MachineBinder) (g : Str) : Option Str :=
  (b.bindings.find? (fun p => p.1 == g)).map Prod.snd

/-- Modelled from the spec (§4.5, §7): `bind` fails with `GuidConflict` when
the machine id is bound elsewhere. -/
inductive BindError
  | GuidConflict
deriving DecidableEq, Repr

/-- Modelled from the spec: `bind(account_id, machine_id)` of MachineGuidBinder
(§4.5); the machine-guid module is not part of the source snapshot. Fails with
`GuidConflict` when the machine id is already bound to a different account;
binding the same account to the same id is a no-op success. -/
def MachineBinder.bind (b : MachineBinder) (account_id g : Str) :
    Except BindError MachineBinder :=
  match b.bound_account_for g with
  | some a => if a = account_id then .ok b else .error .GuidConflict
  | none => .ok ⟨(g, account_id) :: b.bindings⟩

/-- Modelled from the spec: `unbind(account_id)` of MachineGuidBinder (§4.5);
removes every binding of that account. -/
def MachineBinder.unbind (b : MachineBinder) (account_id : Str) : MachineBinder :=
  ⟨b.bindings.filter (fun p => p.2 != account_id)⟩

/-! ## Encode/decode round trip -/

theorem hexVal_hexDigit (n : Nat) (h : n < 16) : hexVal (hexDigit n) = some n := by
  revert h
  revert n
  decide

theorem char_eq_of_toNat_eq (c d : Char) (h : c.toNat = d.toNat) : c = d := by
  rw [← Char.ofNat_toNat c, ← Char.ofNat_toNat d, h]

theorem parseBodyF_quote (f : Nat) (r : List Char) :
    parseBodyF (f + 1) ('"' :: r) = some ([], r) := rfl

theorem parseBodyF_escQuote (f : Nat) (r : List Char) :
    parseBodyF (f + 1) ('\\' :: '"' :: r) =
      (parseBodyF f r).map (fun p => ('"' :: p.1, p.2)) := rfl

theorem parseBodyF_escBack (f : Nat) (r : List Char) :
    parseBodyF (f + 1) ('\\' :: '\\' :: r) =
      (parseBodyF f r).map (fun p => ('\\' :: p.1, p.2)) := rfl

theorem parseBodyF_escB (f : Nat) (r : List Char) :
    parseBodyF (f + 1) ('\\' :: 'b' :: r) =
      (parseBodyF f r).map (fun p => ('\x08' :: p.1, p.2)) := rfl

theorem parseBodyF_escT (f : Nat) (r : List Char) :
    parseBodyF (f + 1) ('\\' :: 't' :: r) =
      (parseBodyF f r).map (fun p => ('\t' :: p.1, p.2)) := rfl

theorem parseBodyF_escN (f : Nat) (r : List Char) :
    parseBodyF (f + 1) ('\\' :: 'n' :: r) =
      (parseBodyF f r).map (fun p => ('\n' :: p.1, p.2)) := rfl

theorem parseBodyF_escF (f : Nat) (r : List Char) :
    parseBodyF (f + 1) ('\\' :: 'f' :: r) =
      (parseBodyF f r).map (fun p => ('\x0C' :: p.1, p.2)) := rfl

theorem parseBodyF_escR (f : Nat) (r : List Char) :
    parseBodyF (f + 1) ('\\' :: 'r' :: r) =
      (parseBodyF f r).map (fun p => ('\x0D' :: p.1, p.2)) := rfl

theorem parseBodyF_escU (f : Nat) (h1 h2 h3 h4 : Char) (r : List Char) (n : Nat)
    (hh : hex4 h1 h2 h3 h4 = some n) (hn : n < 0xD800) :
    parseBodyF (f + 1) ('\\' :: 'u' :: h1 :: h2 :: h3 :: h4 :: r) =
      (parseBodyF f r).map (fun p => (Char.ofNat n :: p.1, p.2)) := by
  simp [parseBodyF, hh, hn]

theorem parseBodyF_other (f : Nat) (c : Char) (r : List Char) (hq : ¬ c = '"')
    (hb : ¬ c = '\\') :
    parseBodyF (f + 1) (c :: r) = (parseBodyF f r).map (fun p => (c :: p.1, p.2)) := by
  simp only [parseBodyF, if_neg hq, if_neg hb]

theorem parseBodyF_escapeChar (f : Nat) (c : Char) (r : List Char) :
    parseBodyF (f + 1) (escapeChar c ++ r) =
      (parseBodyF f r).map (fun p => (c :: p.1, p.2)) := by
  by_cases hq : c = '"'
  · subst hq
    have hesc : escapeChar '"' = ['\\', '"'] := by decide
    rw [hesc]
    exact parseBodyF_escQuote f r
  by_cases hb : c = '\\'
  · subst hb
    have hesc : escapeChar '\\' = ['\\', '\\'] := by decide
    rw [hesc]
    exact parseBodyF_escBack f r
  by_cases hc : c.toNat < 0x20
  · by_cases h8 : c.toNat = 0x08
    · have hcv : c = '\x08' := char_eq_of_toNat_eq _ _ (by rw [h8]; rfl)
      subst hcv
      have hesc : escapeChar '\x08' = ['\\', 'b'] := by decide
      rw [hesc]
      exact parseBodyF_escB f r
    by_cases h9 : c.toNat = 0x09
    · have hcv : c = '\t' := char_eq_of_toNat_eq _ _ (by rw [h9]; rfl)
      subst hcv
      have hesc : escapeChar '\t' = ['\\', 't'] := by decide
      rw [hesc]
      exact parseBodyF_escT f r
    by_cases hA : c.toNat = 0x0A
    · have hcv : c = '\n' := char_eq_of_toNat_eq _ _ (by rw [hA]; rfl)
      subst hcv
      have hesc : escapeChar '\n' = ['\\', 'n'] := by decide
      rw [hesc]
      exact parseBodyF_escN f r
    by_cases hC : c.toNat = 0x0C
    · have hcv : c = '\x0C' := char_eq_of_toNat_eq _ _ (by rw [hC]; rfl)
      subst hcv
      have hesc : escapeChar '\x0C' = ['\\', 'f'] := by decide
      rw [hesc]
      exact parseBodyF_escF f r
    by_cases hD : c.toNat = 0x0D
    · have hcv : c = '\x0D' := char_eq_of_toNat_eq _ _ (by rw [hD]; rfl)
      subst hcv
      have hesc : escapeChar '\x0D' = ['\\', 'r'] := by decide
      rw [hesc]
      exact parseBodyF_escR f r
    · have hesc : escapeChar c =
          ['\\', 'u', '0', '0', hexDigit (c.toNat / 16), hexDigit (c.toNat % 16)] := by
        simp only [escapeChar, if_neg hq, if_neg hb, if_pos hc, if_neg h8, if_neg h9,
          if_neg hA, if_neg hC, if_neg hD]
      have hd1 : hexVal (hexDigit (c.toNat / 16)) = some (c.toNat / 16) :=
        hexVal_hexDigit _ (by omega)
      have hd2 : hexVal (hexDigit (c.toNat % 16)) = some (c.toNat % 16) :=
        hexVal_hexDigit _ (by omega)
      have hz : hexVal '0' = some 0 := by decide
      have hh : hex4 '0' '0' (hexDigit (c.toNat / 16)) (hexDigit (c.toNat % 16)) =
          some c.toNat := by
        simp only [hex4, hz, hd1, hd2]
        exact congrArg some (by omega)
      rw [hesc]
      simp only [List.cons_append, List.nil_append]
      rw [parseBodyF_escU f _ _ _ _ r c.toNat hh (by omega), Char.ofNat_toNat]
  · have hesc : escapeChar c = [c] := by
      simp only [escapeChar, if_neg hq, if_neg hb, if_neg hc]
    rw [hesc]
    simp only [List.cons_append, List.nil_append]
    exact parseBodyF_other f c r hq hb

theorem parseBodyF_encodeBody (s : Str) :
    ∀ (r : List Char) (fuel : Nat), s.length < fuel →
      parseBodyF fuel (encodeBody s ++ ('"' :: r)) = some (s, r) := by
  induction s with
  | nil =>
    intro r fuel h
    obtain ⟨f, rfl⟩ : ∃ f, fuel = f + 1 := ⟨fuel - 1, by omega⟩
    rw [encodeBody]
    simp only [List.nil_append]
    exact parseBodyF_quote f r
  | cons c s ih =>
    intro r fuel h
    obtain ⟨f, rfl⟩ : ∃ f, fuel = f + 1 := ⟨fuel - 1, by omega⟩
    have hs : s.length < f := by
      simp only [List.length_cons] at h
      omega
    rw [encodeBody, List.append_assoc, parseBodyF_escapeChar, ih r f hs]
    rfl

theorem one_le_length_escapeChar (c : Char) : 1 ≤ (escapeChar c).length := by
  simp only [escapeChar]
  repeat' split
  all_goals simp

theorem length_le_length_encodeBody (s : Str) : s.length ≤ (encodeBody s).length := by
  induction s with
  | nil => simp [encodeBody]
  | cons c s ih =>
    rw [encodeBody]
    simp only [List.length_append, List.length_cons]
    have h := one_le_length_escapeChar c
    omega

/-- The serde_json string round trip: decoding a serialized string yields the
original, for every string value. -/
theorem jsonDecode_jsonEncode (u : Str) :
    jsonDecodeString (jsonEncodeString u) = some u := by
  have h1 : skipWs (jsonEncodeString u) = '"' :: (encodeBody u ++ ['"']) := by
    rw [jsonEncodeString, skipWs.eq_def]
    simp
  have hlen : u.length < (encodeBody u ++ ['"']).length + 1 := by
    have h := length_le_length_encodeBody u
    simp only [List.length_append, List.length_cons, List.length_nil]
    omega
  have h3 : parseBody (encodeBody u ++ ['"']) = some (u, []) := by
    rw [parseBody]
    have h := parseBodyF_encodeBody u [] ((encodeBody u ++ ['"']).length + 1) hlen
    simpa using h
  simp only [jsonDecodeString, h1, h3]
  simp [skipWs]


/-! ## Helper lemmas -/

theorem get?_eq_some_getD (l : List Str) (n : Nat) (h : n < l.length) :
    l.get? n = some (l.getD n []) := by
  rw [List.getD_eq_getElem?_getD, List.get?_eq_getElem?]
  cases hh : l[n]? with
  | none => rw [List.getElem?_eq_none_iff] at hh; omega
  | some v => rfl

/-! ## Claims about the single-instance URL selection -/

/-- C1 counterexample: for the 4-element vector `[exe, "kiro://x", "a", "b"]`
the handler selects `"b"` (index 3, unconditionally), which does not match the
scheme prefix, although the first argument matching the prefix is
`"kiro://x"`. -/
theorem C1_firstMatch_counterexample :
    selectUrl [str "exe", str "kiro://x", str "a", str "b"] = some (str "b") ∧
    strStartsWith (str "b") kiroScheme = false ∧
    firstKiroArg [str "exe", str "kiro://x", str "a", str "b"] =
      some (str "kiro://x") ∧
    some (str "b") ≠ some (str "kiro://x") := by
  decide

/-- C1 (amended): when the argument vector has more than 3 elements the
handler unconditionally selects `args[3]` with no prefix check; only for
vectors of length ≤ 3 is the chosen URL an argument matching the `kiro://`
prefix, and there the sole-argument layout (`args[1]`) is tried before the
flag layout (`args[2]`). -/
theorem C1_selectUrl_amended (args : List Str) :
    (3 < args.length → selectUrl args = args.get? 3) ∧
    (args.length ≤ 3 → ∀ u, selectUrl args = some u →
      strStartsWith u kiroScheme = true ∧
      (args.get? 1 = some u ∨
        (strStartsWith (args.getD 1 []) kiroScheme = false ∧
          args.get? 2 = some u))) := by
  constructor
  · intro h
    rw [selectUrl, if_pos h]
  · intro h u hu
    rw [selectUrl, if_neg (by omega)] at hu
    by_cases h1 : 1 < args.length ∧ strStartsWith (args.getD 1 []) kiroScheme
    · rw [if_pos h1] at hu
      have hg : args.get? 1 = some (args.getD 1 []) := get?_eq_some_getD _ _ h1.1
      rw [hg] at hu
      obtain rfl : args.getD 1 [] = u := by injection hu
      exact ⟨h1.2, Or.inl hg⟩
    · rw [if_neg h1] at hu
      by_cases h2 : 2 < args.length ∧ strStartsWith (args.getD 2 []) kiroScheme
      · rw [if_pos h2] at hu
        have hg : args.get? 2 = some (args.getD 2 []) := get?_eq_some_getD _ _ h2.1
        rw [hg] at hu
        obtain rfl : args.getD 2 [] = u := by injection hu
        have hsw1 : strStartsWith (args.getD 1 []) kiroScheme = false := by
          rcases Bool.eq_false_or_eq_true (strStartsWith (args.getD 1 []) kiroScheme)
            with ht | hf
          · exact absurd ⟨by omega, ht⟩ h1
          · exact hf
        exact ⟨h2.2, Or.inr ⟨hsw1, hg⟩⟩
      · rw [if_neg h2] at hu
        exact absurd hu (by simp)

/-- C1 witness: the amended selection applied at the 4-element counterexample
layout picks index 3. -/
theorem C1_selectUrl_amended_witness :
    selectUrl [str "exe", str "kiro://x", str "a", str "b"] =
      [str "exe", str "kiro://x", str "a", str "b"].get? 3 :=
  (C1_selectUrl_amended [str "exe", str "kiro://x", str "a", str "b"]).1 (by decide)

/-- C2: in each of the three exact layouts `[exe, url]`, `[exe, flag, url]`
and `[exe, flag, sep, url]`, with `url` starting with `kiro://` and the flag
not itself carrying the scheme prefix, the handler extracts exactly `url`. -/
theorem C2_threeLayouts_extract (exe flag sep url : Str)
    (hurl : strStartsWith url kiroScheme = true)
    (hflag : strStartsWith flag kiroScheme = false) :
    selectUrl [exe, url] = some url ∧
    selectUrl [exe, flag, url] = some url ∧
    selectUrl [exe, flag, sep, url] = some url := by
  refine ⟨?_, ?_, ?_⟩
  · rw [selectUrl]
    simp [hurl]
  · rw [selectUrl]
    simp [hurl, hflag]
  · rw [selectUrl]
    simp

/-- C2 witness: the spec's own example
`[exe, "--open-url", "--", "kiro://cb?state=abc"]` (and the two shorter
layouts) yield `"kiro://cb?state=abc"`. -/
theorem C2_threeLayouts_extract_witness :
    selectUrl [str "C:/app.exe", str "kiro://cb?state=abc"] =
      some (str "kiro://cb?state=abc") ∧
    selectUrl [str "C:/app.exe", str "--open-url", str "kiro://cb?state=abc"] =
      some (str "kiro://cb?state=abc") ∧
    selectUrl [str "C:/app.exe", str "--open-url", str "--",
      str "kiro://cb?state=abc"] = some (str "kiro://cb?state=abc") :=
  C2_threeLayouts_extract (str "C:/app.exe") (str "--open-url") (str "--")
    (str "kiro://cb?state=abc") (by decide) (by decide)

/-- C9: for every argument vector with more than four elements the handler
selects `args[3]` unconditionally — no `kiro://` prefix check guards this
branch. -/
theorem C9_index3_unconditional (args : List Str) (h : 4 < args.length) :
    selectUrl args = args.get? 3 := by
  rw [selectUrl, if_pos (by omega)]

/-- C9 witness: a 5-element vector whose URL is at index 4, not 3, yields the
non-URL value `"nonurl"`. -/
theorem C9_index3_unconditional_witness :
    selectUrl [str "exe", str "a", str "b", str "nonurl", str "kiro://x"] =
      some (str "nonurl") ∧
    strStartsWith (str "nonurl") kiroScheme = false := by
  constructor
  · rw [C9_index3_unconditional
      [str "exe", str "a", str "b", str "nonurl", str "kiro://x"] (by decide)]
    decide
  · decide

/-! ## Claims about the deep-link listener and the end-to-end pipeline -/

/-- C3: the listener attempts structured JSON decoding of the payload first
and uses the decoded string on success; on any decode failure it uses the raw
payload itself as the literal URL — the fallback, never a drop or a crash
(`listenerUrl` is a total function). -/
theorem C3_decode_then_fallback (payload : List Char) :
    (∀ u, jsonDecodeString payload = some u → listenerUrl payload = u) ∧
    (jsonDecodeString payload = none → listenerUrl payload = payload) := by
  constructor
  · intro u hu
    rw [listenerUrl, hu]
  · intro hn
    rw [listenerUrl, hn]

/-- C3 witness: a JSON-wrapped payload decodes to the bare URL. -/
theorem C3_decode_then_fallback_witness :
    listenerUrl (str "\"kiro://cb?state=abc\"") = str "kiro://cb?state=abc" :=
  (C3_decode_then_fallback (str "\"kiro://cb?state=abc\"")).1
    (str "kiro://cb?state=abc") (by decide)

/-- C4: when the handler finds no `kiro://` URL in the arguments, it emits no
deep-link event, still runs to completion (the step is a total function whose
only other effect is the window show/focus), and the pending-login slot is
untouched. -/
theorem C4_no_url_dropped (args : List Str) (pending : Option PendingLogin)
    (h : selectUrl args = none) :
    (singleInstanceStep args true pending).1.emitted = none ∧
    (singleInstanceStep args true pending).2 = pending ∧
    (singleInstanceStep args true pending).1.focusedMain = true := by
  refine ⟨?_, rfl, rfl⟩
  rw [singleInstanceStep]
  simp [h]

/-- C4 witness: a bare `[exe]` launch emits nothing and disturbs nothing. -/
theorem C4_no_url_dropped_witness :
    (singleInstanceStep [str "exe"] true none).1.emitted = none ∧
    (singleInstanceStep [str "exe"] true none).2 = none ∧
    (singleInstanceStep [str "exe"] true none).1.focusedMain = true :=
  C4_no_url_dropped [str "exe"] none (by decide)

/-- C5: on every second-instance launch the running instance shows and focuses
its main window — for any argument vector, URL found or not. -/
theorem C5_always_show_focus (args : List Str) (pending : Option PendingLogin) :
    (singleInstanceStep args true pending).1.shownMain = true ∧
    (singleInstanceStep args true pending).1.focusedMain = true :=
  ⟨rfl, rfl⟩

/-- C10: for every URL the single-instance handler finds, the emitted event
payload is its JSON string serialization, and the listener's decode maps that
payload back to exactly the same URL — the emit-then-decode round trip is the
identity. -/
theorem C10_emit_decode_roundtrip (args : List Str) (u : Str)
    (pending : Option PendingLogin) (h : selectUrl args = some u) :
    (singleInstanceStep args true pending).1.emitted = some (jsonEncodeString u) ∧
    listenerUrl (jsonEncodeString u) = u := by
  constructor
  · rw [singleInstanceStep]
    simp [h]
  · rw [listenerUrl, jsonDecode_jsonEncode]

/-- C10 witness: the URL `kiro://cb` found in `[exe, "kiro://cb"]` survives the
emit-then-decode round trip unchanged. -/
theorem C10_emit_decode_roundtrip_witness :
    (singleInstanceStep [str "exe", str "kiro://cb"] true none).1.emitted =
      some (jsonEncodeString (str "kiro://cb")) ∧
    listenerUrl (jsonEncodeString (str "kiro://cb")) = str "kiro://cb" :=
  C10_emit_decode_roundtrip [str "exe", str "kiro://cb"] (str "kiro://cb") none
    (by decide)

/-! ## Claims about the spec-modelled operations -/

/-- C6: with an active PendingLogin, a callback whose correlation token
differs from its `correlation_token` fails with `CorrelationMismatch` and
leaves the AccountStore (and the pending slot) unchanged — for every store,
every provider-exchange behavior and every account construction. -/
theorem C6_correlation_mismatch (p : PendingLogin) (store : AccountStore)
    (token : Str) (now : Nat)
    (finish : Str → Except ProviderErrorInfo Credentials)
    (mkAccount : Credentials → Account)
    (hne : token ≠ p.correlation_token) :
    complete_login (some p) store token now finish mkAccount =
      (.error .CorrelationMismatch, some p, store) := by
  rw [complete_login.eq_def]
  simp [hne]

/-- C6 witness: a concrete mismatching callback (`"tok2"` against pending
`"tok1"`) fails with `CorrelationMismatch` and leaves the empty store
unchanged, even though the provider exchange would have succeeded. -/
theorem C6_correlation_mismatch_witness :
    complete_login (some ⟨str "tok1", .SocialLogin, 0, 100⟩) ⟨[]⟩ (str "tok2") 0
      (fun _ => .ok ⟨str "at", none, 99⟩)
      (fun c => ⟨str "id", .SocialLogin, str "nm", c, none, .Active, 0⟩) =
      (.error .CorrelationMismatch, some ⟨str "tok1", .SocialLogin, 0, 100⟩, ⟨[]⟩) :=
  C6_correlation_mismatch ⟨str "tok1", .SocialLogin, 0, 100⟩ ⟨[]⟩ (str "tok2") 0
    (fun _ => .ok ⟨str "at", none, 99⟩)
    (fun c => ⟨str "id", .SocialLogin, str "nm", c, none, .Active, 0⟩)
    (by decide)

/-- C7: a refresh whose provider token exchange fails leaves the store — in
particular the account's `credentials` and `status` — exactly as before the
call (get-before equals get-after). -/
theorem C7_refresh_fail_preserves (store : AccountStore) (id : Str)
    (now grace : Nat)
    (exchange : Credentials → Except ProviderErrorInfo Credentials)
    (a : Account) (e : ProviderErrorInfo)
    (ha : getAccount store id = some a)
    (hex : exchange a.credentials = .error e) :
    (refresh store id now grace exchange).2 = store ∧
    getAccount (refresh store id now grace exchange).2 id = some a := by
  have h2 : (refresh store id now grace exchange).2 = store := by
    rw [refresh.eq_def]
    simp only [ha]
    split
    · rfl
    · rw [hex]
  exact ⟨h2, by rw [h2, ha]⟩

/-- C7 witness: refreshing a concrete expired account through a failing
exchange returns the store unchanged. -/
theorem C7_refresh_fail_preserves_witness :
    (refresh ⟨[⟨str "id1", .SocialLogin, str "nm", ⟨str "at", none, 50⟩, none,
        .Active, 0⟩]⟩ (str "id1") 100 0
      (fun _ => .error ⟨.SocialLogin, true⟩)).2 =
      ⟨[⟨str "id1", .SocialLogin, str "nm", ⟨str "at", none, 50⟩, none,
        .Active, 0⟩]⟩ ∧
    getAccount (refresh ⟨[⟨str "id1", .SocialLogin, str "nm",
        ⟨str "at", none, 50⟩, none, .Active, 0⟩]⟩ (str "id1") 100 0
      (fun _ => .error ⟨.SocialLogin, true⟩)).2 (str "id1") =
      some ⟨str "id1", .SocialLogin, str "nm", ⟨str "at", none, 50⟩, none,
        .Active, 0⟩ :=
  C7_refresh_fail_preserves _ (str "id1") 100 0
    (fun _ => .error ⟨.SocialLogin, true⟩)
    ⟨str "id1", .SocialLogin, str "nm", ⟨str "at", none, 50⟩, none, .Active, 0⟩
    ⟨.SocialLogin, true⟩ (by decide) rfl

/-- Unfolding of `bind` when the machine id is already bound. -/
theorem bind_eq_of_bound (b : MachineBinder) (acct g a : Str)
    (h : b.bound_account_for g = some a) :
    b.bind acct g = if a = acct then .ok b else .error .GuidConflict := by
  rw [MachineBinder.bind.eq_def, h]

/-- Unfolding of `bind` when the machine id is unbound. -/
theorem bind_eq_of_unbound (b : MachineBinder) (acct g : Str)
    (h : b.bound_account_for g = none) :
    b.bind acct g = .ok ⟨(g, acct) :: b.bindings⟩ := by
  rw [MachineBinder.bind.eq_def, h]

/-- With machine-id keys pairwise distinct, a found binding is the only one
with its key: every pair carrying the same key has the found pair's value. -/
theorem find?_key_value_unique (l : List (Str × Str)) (G : Str)
    (hnd : (l.map Prod.fst).Nodup) (p : Str × Str)
    (hfind : l.find? (fun q => q.1 == G) = some p)
    (q : Str × Str) (hq : q ∈ l) (hqG : q.1 = G) : q.2 = p.2 := by
  induction l with
  | nil => simp at hfind
  | cons x l ih =>
    simp only [List.map_cons, List.nodup_cons] at hnd
    rw [List.find?_cons] at hfind
    cases hxb : (x.1 == G) with
    | true =>
      have hxp : x = p := Option.some.inj (by rw [hxb] at hfind; exact hfind)
      subst hxp
      rcases List.mem_cons.mp hq with rfl | hql
      · rfl
      · exfalso
        apply hnd.1
        have hxG : x.1 = G := eq_of_beq hxb
        rw [hxG, ← hqG]
        exact List.mem_map_of_mem Prod.fst hql
    | false =>
      have hfind2 : l.find? (fun q2 => q2.1 == G) = some p := by
        rw [hxb] at hfind
        exact hfind
      rcases List.mem_cons.mp hq with rfl | hql
      · rw [hqG] at hxb
        simp at hxb
      · exact ih hnd.2 hfind2 hql

/-- C8: starting from any binder with pairwise-distinct machine-id keys, after
`bind A G` succeeds: `bind B G` for B ≠ A fails with `GuidConflict`; repeating
`bind A G` is a no-op success; and after `unbind A`, `bind B G` succeeds. -/
theorem C8_bind_conflict_noop_unbind (b : MachineBinder) (A B G : Str)
    (hnd : (b.bindings.map Prod.fst).Nodup) (hAB : A ≠ B) (b2 : MachineBinder)
    (h1 : b.bind A G = .ok b2) :
    b2.bind B G = .error .GuidConflict ∧
    b2.bind A G = .ok b2 ∧
    ∃ b3, (b2.unbind A).bind B G = .ok b3 := by
  have hkey : b2.bound_account_for G = some A ∧
      ∀ q ∈ b2.bindings, q.1 = G → q.2 = A := by
    cases hba : b.bound_account_for G with
    | some a =>
      rw [bind_eq_of_bound b A G a hba] at h1
      by_cases haA : a = A
      · rw [if_pos haA] at h1
        obtain rfl : b = b2 := by injection h1
        subst haA
        refine ⟨hba, ?_⟩
        rw [MachineBinder.bound_account_for] at hba
        cases hf : b.bindings.find? (fun p => p.1 == G) with
        | none => rw [hf] at hba; simp at hba
        | some pr =>
          rw [hf] at hba
          have hpr : pr.2 = a := by simpa using hba
          intro q hq hqG
          rw [find?_key_value_unique b.bindings G hnd pr hf q hq hqG, hpr]
      · rw [if_neg haA] at h1
        simp at h1
    | none =>
      rw [bind_eq_of_unbound b A G hba] at h1
      obtain rfl : MachineBinder.mk ((G, A) :: b.bindings) = b2 := by injection h1
      constructor
      · rw [MachineBinder.bound_account_for]
        simp
      · intro q hq hqG
        rcases List.mem_cons.mp hq with rfl | hql
        · rfl
        · exfalso
          rw [MachineBinder.bound_account_for] at hba
          cases hf : b.bindings.find? (fun p => p.1 == G) with
          | some pr => rw [hf] at hba; simp at hba
          | none =>
            rw [List.find?_eq_none] at hf
            exact absurd (by simp [hqG]) (hf q hql)
  refine ⟨?_, ?_, ?_⟩
  · rw [bind_eq_of_bound b2 B G A hkey.1, if_neg hAB]
  · rw [bind_eq_of_bound b2 A G A hkey.1, if_pos rfl]
  · have hnone : (b2.unbind A).bound_account_for G = none := by
      rw [MachineBinder.bound_account_for]
      have hf : (b2.unbind A).bindings.find? (fun p => p.1 == G) = none := by
        rw [List.find?_eq_none]
        intro q hq
        rw [MachineBinder.unbind] at hq
        simp only [List.mem_filter, bne_iff_ne, ne_eq] at hq
        intro hqG
        exact hq.2 (hkey.2 q hq.1 (by simpa using hqG))
      rw [hf]
      rfl
    exact ⟨_, bind_eq_of_unbound _ B G hnone⟩


/-- C8 witness: on the empty binder, `bind "a" "g"` succeeds; then
`bind "b" "g"` conflicts, `bind "a" "g"` is a no-op, and after `unbind "a"`,
`bind "b" "g"` succeeds. -/
theorem C8_bind_conflict_noop_unbind_witness :
    MachineBinder.bind ⟨[(str "g", str "a")]⟩ (str "b") (str "g") =
      .error .GuidConflict ∧
    MachineBinder.bind ⟨[(str "g", str "a")]⟩ (str "a") (str "g") =
      .ok ⟨[(str "g", str "a")]⟩ ∧
    ∃ b3, (MachineBinder.unbind ⟨[(str "g", str "a")]⟩ (str "a")).bind
      (str "b") (str "g") = .ok b3 :=
  C8_bind_conflict_noop_unbind ⟨[]⟩ (str "a") (str "b") (str "g") (by decide)
    (by decide) ⟨[(str "g", str "a")]⟩ rfl
